import Mathlib

/-!
Verification of the scene-duration alignment algorithm
(`calculate_scene_durations` in `main.py`) of the FinanceVision video
pipeline.  The aligner matches a list of scenes (each carrying a free-form
`narration` string) against a flat list of word-level timestamps, carrying a
single forward cursor across scenes, and annotates every scene with a
`duration` in seconds.

Durations are modelled as exact rationals `ℚ`; on every concrete value the
claims mention (`x/1000.0 + 0.3` for the inputs at hand, `2.0`, `5.0`) the
Python float computation agrees exactly with the rational one.
-/

namespace FV

/-- Model of Python's `str.isalnum` on the character ranges this pipeline
exercises: ASCII letters and digits and CJK Unified Ideographs
(U+4E00–U+9FFF, Unicode category Lo, alphanumeric for Python) count;
whitespace, ASCII punctuation, CJK punctuation (U+3001 、, U+3002 。) and
fullwidth punctuation (e.g. U+FF0C ，) do not. -/
def pyIsAlnum (c : Char) : Bool :=
  c.isAlphanum || (0x4E00 ≤ c.toNat && c.toNat ≤ 0x9FFF)

/-- Model of Python's `str.strip`: drop leading and trailing whitespace. -/
def pyStrip (s : String) : String :=
  ⟨((s.data.dropWhile Char.isWhitespace).reverse.dropWhile
      Char.isWhitespace).reverse⟩

/-- `list("".join(filter(str.isalnum, text)))` from `main.py` lines 53/69:
the normalized text as a list of its alphanumeric characters. -/
def normalize (s : String) : List Char :=
  s.data.filter pyIsAlnum

/-- One word-level timestamp `{text, start, end}` (`end` is a Lean keyword,
rendered here as `stop`); times are integer milliseconds. -/
structure WordTimestamp where
  text : String
  start : Int
  stop : Int
deriving Repr, DecidableEq

/-- One scene dictionary.  `narration` is `none` when the key is absent
(`scene.get('narration', '')`); `visual_prompt` and `extra` stand for the
remaining fields, which the aligner never touches; `duration` is `none`
before alignment. -/
structure Scene where
  narration : Option String
  visual_prompt : String
  extra : String
  duration : Option ℚ
deriving Repr, DecidableEq

/-- The per-scene diagnostics `calculate_scene_durations` emits via
`logging`, with the data that identifies each message. -/
inductive LogEntry where
  /-- line 57: scene `i` has no narration, default 2 s -/
  | noNarration (sceneIdx : Nat)
  /-- line 95: scene `i` matched only in part; payload is the unmatched
  remainder of the normalized narration -/
  | partMatch (sceneIdx : Nat) (remaining : List Char)
  /-- line 103: scene `i` matched; duration and number of matched words -/
  | matchOk (sceneIdx : Nat) (dur : ℚ) (wordsMatched : Nat)
  /-- line 107: no timestamp matched scene `i`; payload is the (stripped)
  narration text named in the error message -/
  | noMatch (sceneIdx : Nat) (narrationText : String)
deriving Repr, DecidableEq

/-- Result of the inner scan loop (`for j in range(timestamp_cursor, ...)`,
lines 66–97) for one scene.  `buffer` is the final value of
`clean_narration_chars`; `cursorUpdate = some c` when the loop exited via
`break` after setting `timestamp_cursor = c`, `none` when the loop ran off
the end of the timestamp list (the Python code then leaves the cursor
untouched).  `matchedIdx` is ghost data: the indices `j` of the timestamps
that matched, in order. -/
structure ScanResult where
  buffer : List Char
  startTime : Int
  endTime : Int
  startFound : Bool
  wordsMatched : Nat
  cursorUpdate : Option Nat
  matchedIdx : List Nat
deriving Repr, DecidableEq

/-- The scan loop itself.  `items` is the list of `(j, word_timestamps[j])`
pairs still to visit; the remaining arguments are the loop-carried Python
locals `clean_narration_chars`, `scene_start_time`, `scene_end_time`,
`start_found`, `words_matched_in_scene`. -/
def scanAux (items : List (Nat × WordTimestamp)) (buffer : List Char)
    (startTime endTime : Int) (startFound : Bool) (wordsMatched : Nat) :
    ScanResult :=
  match items with
  | [] => ⟨buffer, startTime, endTime, startFound, wordsMatched, none, []⟩
  | (j, w) :: rest =>
    let wChars := normalize w.text
    if wChars = [] then
      -- line 72: skip empty / pure-punctuation timestamps
      scanAux rest buffer startTime endTime startFound wordsMatched
    else if wChars.isPrefixOf buffer then
      -- lines 75–91: the remaining narration starts with this word
      let startTime' := if startFound then startTime else w.start
      let endTime' := w.stop
      let buffer' := buffer.drop wChars.length
      if buffer' = [] then
        -- line 90: fully matched, cursor moves past this word
        ⟨[], startTime', endTime', true, wordsMatched + 1, some (j + 1), [j]⟩
      else
        let r := scanAux rest buffer' startTime' endTime' true
          (wordsMatched + 1)
        { r with matchedIdx := j :: r.matchedIdx }
    else if startFound then
      -- lines 94–97: partial match broke; cursor rewinds to this word
      ⟨buffer, startTime, endTime, true, wordsMatched, some j, []⟩
    else
      -- no match started yet: keep scanning forward
      scanAux rest buffer startTime endTime startFound wordsMatched

/-- The scan for one scene, started at the current cursor. -/
def scanScene (ts : List WordTimestamp) (cursor : Nat) (scene : Scene) :
    ScanResult :=
  scanAux (List.enumFrom cursor (ts.drop cursor))
    (normalize (pyStrip (scene.narration.getD ""))) (-1) (-1) false 0

/-- Outcome of one iteration of the scene loop: the annotated scene, the
(updated) cursor, the ghost list of timestamp indices this scene matched,
and the diagnostics emitted. -/
structure StepResult where
  scene : Scene
  cursor : Nat
  matched : List Nat
  logs : List LogEntry
deriving Repr, DecidableEq

/-- One iteration of the scene loop (`main.py` lines 47–107) at scene index
`i` with the cursor as left by the previous scenes. -/
def processScene (ts : List WordTimestamp) (cursor : Nat) (i : Nat)
    (scene : Scene) : StepResult :=
  let narration := pyStrip (scene.narration.getD "")
  let buffer := normalize narration
  if buffer = [] then
    -- lines 55–58: captionless scene, default 2 s, cursor untouched
    ⟨{ scene with duration := some 2 }, cursor, [], [LogEntry.noNarration i]⟩
  else
    let r := scanScene ts cursor scene
    let cursor' := r.cursorUpdate.getD cursor
    let logs :=
      if r.cursorUpdate.isSome && !r.buffer.isEmpty then
        [LogEntry.partMatch i r.buffer]
      else []
    if r.startFound then
      -- lines 99–103: duration from first matched start / last matched end
      let dur : ℚ := ((r.endTime - r.startTime : Int) : ℚ) / 1000 + 3 / 10
      ⟨{ scene with duration := some dur }, cursor', r.matchedIdx,
        logs ++ [LogEntry.matchOk i dur r.wordsMatched]⟩
    else
      -- lines 104–107: nothing matched, conspicuous 5 s fallback
      ⟨{ scene with duration := some 5 }, cursor', r.matchedIdx,
        logs ++ [LogEntry.noMatch i narration]⟩

/-- Outcome of the full run: annotated scenes, final cursor, ghost list of
matched-index lists (one per scene, in scene order), diagnostics. -/
structure RunResult where
  scenes : List Scene
  cursor : Nat
  matched : List (List Nat)
  logs : List LogEntry
deriving Repr, DecidableEq

/-- The scene loop, threading the cursor; `i` is the index of the first
scene of `scenes` in the original list. -/
def calcAux (ts : List WordTimestamp) (scenes : List Scene) (cursor i : Nat) :
    RunResult :=
  match scenes with
  | [] => ⟨[], cursor, [], []⟩
  | s :: rest =>
    let st := processScene ts cursor i s
    let r := calcAux ts rest st.cursor (i + 1)
    ⟨st.scene :: r.scenes, r.cursor, st.matched :: r.matched,
      st.logs ++ r.logs⟩

/-- `calculate_scene_durations(scenes, word_timestamps)`: the scene list
with every `duration` populated. -/
def calculate_scene_durations (scenes : List Scene)
    (word_timestamps : List WordTimestamp) : List Scene :=
  (calcAux word_timestamps scenes 0 0).scenes

/-- Cursor value before scene `k` of a run (after processing the first `k`
scenes). -/
def cursorAt (ts : List WordTimestamp) (scenes : List Scene)
    (cursor i k : Nat) : Nat :=
  (calcAux ts (scenes.take k) cursor i).cursor

/-! ### Lemmas about the scan loop -/

/-- Every timestamp index a scan starting at cursor `c` matches is `≥ c`. -/
theorem scanAux_matched_ge :
    ∀ (l : List WordTimestamp) (c : Nat) (buffer : List Char) (st et : Int)
      (sf : Bool) (wm : Nat) (j : Nat),
      j ∈ (scanAux (List.enumFrom c l) buffer st et sf wm).matchedIdx →
      c ≤ j := by
  intro l
  induction l with
  | nil => intro c buffer st et sf wm j h; simp [scanAux, List.enumFrom] at h
  | cons x rest ih =>
    intro c buffer st et sf wm j h
    simp only [List.enumFrom, scanAux] at h
    by_cases h1 : normalize x.text = []
    · rw [if_pos h1] at h
      exact Nat.le_of_succ_le (ih (c + 1) _ _ _ _ _ j h)
    · rw [if_neg h1] at h
      by_cases h2 : (normalize x.text).isPrefixOf buffer = true
      · rw [if_pos h2] at h
        by_cases h3 : List.drop (normalize x.text).length buffer = []
        · rw [if_pos h3] at h
          simp at h
          omega
        · rw [if_neg h3] at h
          simp only [List.mem_cons] at h
          rcases h with h | h
          · omega
          · exact Nat.le_of_succ_le (ih (c + 1) _ _ _ _ _ j h)
      · rw [if_neg h2] at h
        by_cases h4 : sf = true
        · rw [if_pos h4] at h
          simp at h
        · rw [if_neg h4] at h
          exact Nat.le_of_succ_le (ih (c + 1) _ _ _ _ _ j h)

/-- If a scan starting at cursor `c` breaks and sets the cursor to `u`,
then `u ≥ c`: the Python cursor is set to `j` or `j + 1` for a loop index
`j ≥ timestamp_cursor`. -/
theorem scanAux_cursorUpdate_ge :
    ∀ (l : List WordTimestamp) (c : Nat) (buffer : List Char) (st et : Int)
      (sf : Bool) (wm : Nat) (u : Nat),
      (scanAux (List.enumFrom c l) buffer st et sf wm).cursorUpdate =
        some u →
      c ≤ u := by
  intro l
  induction l with
  | nil => intro c buffer st et sf wm u h; simp [scanAux, List.enumFrom] at h
  | cons x rest ih =>
    intro c buffer st et sf wm u h
    simp only [List.enumFrom, scanAux] at h
    by_cases h1 : normalize x.text = []
    · rw [if_pos h1] at h
      exact Nat.le_of_succ_le (ih (c + 1) _ _ _ _ _ u h)
    · rw [if_neg h1] at h
      by_cases h2 : (normalize x.text).isPrefixOf buffer = true
      · rw [if_pos h2] at h
        by_cases h3 : List.drop (normalize x.text).length buffer = []
        · rw [if_pos h3] at h
          simp at h
          omega
        · rw [if_neg h3] at h
          exact Nat.le_of_succ_le (ih (c + 1) _ _ _ _ _ u h)
      · rw [if_neg h2] at h
        by_cases h4 : sf = true
        · rw [if_pos h4] at h
          simp at h
          omega
        · rw [if_neg h4] at h
          exact Nat.le_of_succ_le (ih (c + 1) _ _ _ _ _ u h)

/-- If a scan breaks and sets the cursor to `u`, every timestamp index it
matched is `< u`: a full match sets the cursor one past the last matched
word, a partial break sets it to the first failing word, which lies after
every matched one. -/
theorem scanAux_matched_lt :
    ∀ (l : List WordTimestamp) (c : Nat) (buffer : List Char) (st et : Int)
      (sf : Bool) (wm : Nat) (u j : Nat),
      (scanAux (List.enumFrom c l) buffer st et sf wm).cursorUpdate =
        some u →
      j ∈ (scanAux (List.enumFrom c l) buffer st et sf wm).matchedIdx →
      j < u := by
  intro l
  induction l with
  | nil =>
    intro c buffer st et sf wm u j h hm
    simp [scanAux, List.enumFrom] at h
  | cons x rest ih =>
    intro c buffer st et sf wm u j h hm
    simp only [List.enumFrom, scanAux] at h hm
    by_cases h1 : normalize x.text = []
    · rw [if_pos h1] at h hm
      exact ih (c + 1) _ _ _ _ _ u j h hm
    · rw [if_neg h1] at h hm
      by_cases h2 : (normalize x.text).isPrefixOf buffer = true
      · rw [if_pos h2] at h hm
        by_cases h3 : List.drop (normalize x.text).length buffer = []
        · rw [if_pos h3] at h hm
          simp at h hm
          omega
        · rw [if_neg h3] at h hm
          simp only [List.mem_cons] at hm
          rcases hm with hm | hm
          · have := scanAux_cursorUpdate_ge rest (c + 1) _ _ _ _ _ u h
            omega
          · exact ih (c + 1) _ _ _ _ _ u j h hm
      · rw [if_neg h2] at h hm
        by_cases h4 : sf = true
        · rw [if_pos h4] at h hm
          simp at hm
        · rw [if_neg h4] at h hm
          exact ih (c + 1) _ _ _ _ _ u j h hm

/-- A scan that runs off the end of the timestamp list without breaking
leaves a non-empty remaining-narration buffer (when it started with one):
the only way the buffer empties is the full-match `break`. -/
theorem scanAux_none_buffer :
    ∀ (items : List (Nat × WordTimestamp)) (buffer : List Char)
      (st et : Int) (sf : Bool) (wm : Nat),
      buffer ≠ [] →
      (scanAux items buffer st et sf wm).cursorUpdate = none →
      (scanAux items buffer st et sf wm).buffer ≠ [] := by
  intro items
  induction items with
  | nil => intro buffer st et sf wm hb _; simpa [scanAux] using hb
  | cons p rest ih =>
    rcases p with ⟨j, w⟩
    intro buffer st et sf wm hb h
    simp only [scanAux] at h ⊢
    by_cases h1 : normalize w.text = []
    · rw [if_pos h1] at h ⊢
      exact ih _ _ _ _ _ hb h
    · rw [if_neg h1] at h ⊢
      by_cases h2 : (normalize w.text).isPrefixOf buffer = true
      · rw [if_pos h2] at h ⊢
        by_cases h3 : List.drop (normalize w.text).length buffer = []
        · rw [if_pos h3] at h
          simp at h
        · rw [if_neg h3] at h ⊢
          exact ih _ _ _ _ _ h3 h
      · rw [if_neg h2] at h ⊢
        by_cases h4 : sf = true
        · rw [if_pos h4] at h
          simp at h
        · rw [if_neg h4] at h ⊢
          exact ih _ _ _ _ _ hb h

/-- If no timestamp in view normalizes to a non-empty prefix of the
narration buffer, the scan matches nothing: it returns its state unchanged,
with no break and no matched index. -/
theorem scanAux_no_match :
    ∀ (items : List (Nat × WordTimestamp)) (buffer : List Char)
      (st et : Int) (wm : Nat),
      (∀ p ∈ items, normalize p.2.text ≠ [] →
        ¬((normalize p.2.text).isPrefixOf buffer = true)) →
      scanAux items buffer st et false wm =
        ⟨buffer, st, et, false, wm, none, []⟩ := by
  intro items
  induction items with
  | nil => intro buffer st et wm _; simp [scanAux]
  | cons p rest ih =>
    rcases p with ⟨j, w⟩
    intro buffer st et wm hno
    simp only [scanAux]
    by_cases h1 : normalize w.text = []
    · rw [if_pos h1]
      exact ih buffer st et wm fun p hp => hno p (List.mem_cons_of_mem _ hp)
    · rw [if_neg h1]
      rw [if_neg (hno (j, w) (List.mem_cons_self _ _) h1)]
      simp only [Bool.false_eq_true, if_false]
      exact ih buffer st et wm fun p hp => hno p (List.mem_cons_of_mem _ hp)

/-- A scan entered with `start_found = true` keeps it, never changes
`scene_start_time`, and its final `scene_end_time` is `et` if it matches
nothing more, else the `end` of the last timestamp it matches. -/
theorem scanAux_times_true :
    ∀ (items : List (Nat × WordTimestamp)) (buffer : List Char)
      (st et : Int) (wm : Nat),
      (scanAux items buffer st et true wm).startFound = true ∧
      (scanAux items buffer st et true wm).startTime = st ∧
      ((scanAux items buffer st et true wm).matchedIdx = [] →
        (scanAux items buffer st et true wm).endTime = et) ∧
      (∀ j, (scanAux items buffer st et true wm).matchedIdx.getLast? =
          some j →
        ∃ w, (j, w) ∈ items ∧
          (scanAux items buffer st et true wm).endTime = w.stop) := by
  intro items
  induction items with
  | nil =>
    intro buffer st et wm
    refine ⟨rfl, rfl, fun _ => rfl, fun j h => ?_⟩
    simp [scanAux] at h
  | cons p rest ih =>
    rcases p with ⟨j, w⟩
    intro buffer st et wm
    simp only [scanAux]
    by_cases h1 : normalize w.text = []
    · rw [if_pos h1]
      obtain ⟨ha, hb, hc, hd⟩ := ih buffer st et wm
      exact ⟨ha, hb, hc, fun j' h' =>
        (hd j' h').imp fun w' hw => ⟨List.mem_cons_of_mem _ hw.1, hw.2⟩⟩
    · rw [if_neg h1]
      by_cases h2 : (normalize w.text).isPrefixOf buffer = true
      · rw [if_pos h2]
        simp only [eq_self_iff_true, if_true]
        by_cases h3 : List.drop (normalize w.text).length buffer = []
        · rw [if_pos h3]
          refine ⟨rfl, rfl, by simp, fun j' h' => ?_⟩
          simp at h'
          subst h'
          exact ⟨w, List.mem_cons_self _ _, by simp⟩
        · rw [if_neg h3]
          obtain ⟨ha, hb, hc, hd⟩ :=
            ih (List.drop (normalize w.text).length buffer) st w.stop (wm + 1)
          refine ⟨ha, by simpa using hb, by simp, fun j' h' => ?_⟩
          replace h' : (j :: (scanAux rest (List.drop
              (normalize w.text).length buffer) st w.stop true
              (wm + 1)).matchedIdx).getLast? = some j' := h'
          rcases hm : (scanAux rest (List.drop (normalize w.text).length
              buffer) st w.stop true (wm + 1)).matchedIdx with _ | ⟨a, m⟩
          · rw [hm] at h'
            simp at h'
            subst h'
            refine ⟨w, List.mem_cons_self _ _, ?_⟩
            simpa using hc hm
          · rw [hm, List.getLast?_cons_cons, ← hm] at h'
            obtain ⟨w', hw', he⟩ := hd j' h'
            exact ⟨w', List.mem_cons_of_mem _ hw', by simpa using he⟩
      · rw [if_neg h2]
        simp only [eq_self_iff_true, if_true]
        refine ⟨?_, ?_, ?_, ?_⟩ <;> simp

/-- A scan entered with `start_found = false` that ends with
`start_found = true` has matched at least one timestamp;
`scene_start_time` is the `start` of the first matched one and
`scene_end_time` the `end` of the last matched one. -/
theorem scanAux_times_false :
    ∀ (items : List (Nat × WordTimestamp)) (buffer : List Char)
      (st et : Int) (wm : Nat),
      (scanAux items buffer st et false wm).startFound = true →
      (∃ jf wf, (scanAux items buffer st et false wm).matchedIdx.head? =
          some jf ∧ (jf, wf) ∈ items ∧
          (scanAux items buffer st et false wm).startTime = wf.start) ∧
      (∃ jl wl, (scanAux items buffer st et false wm).matchedIdx.getLast? =
          some jl ∧ (jl, wl) ∈ items ∧
          (scanAux items buffer st et false wm).endTime = wl.stop) := by
  intro items
  induction items with
  | nil =>
    intro buffer st et wm h
    simp [scanAux] at h
  | cons p rest ih =>
    rcases p with ⟨j, w⟩
    intro buffer st et wm h
    simp only [scanAux] at h ⊢
    by_cases h1 : normalize w.text = []
    · rw [if_pos h1] at h ⊢
      obtain ⟨⟨jf, wf, hf1, hf2, hf3⟩, ⟨jl, wl, hl1, hl2, hl3⟩⟩ :=
        ih buffer st et wm h
      exact ⟨⟨jf, wf, hf1, List.mem_cons_of_mem _ hf2, hf3⟩,
        ⟨jl, wl, hl1, List.mem_cons_of_mem _ hl2, hl3⟩⟩
    · rw [if_neg h1] at h ⊢
      by_cases h2 : (normalize w.text).isPrefixOf buffer = true
      · rw [if_pos h2] at h ⊢
        simp only [Bool.false_eq_true, if_false] at h ⊢
        by_cases h3 : List.drop (normalize w.text).length buffer = []
        · rw [if_pos h3] at h ⊢
          exact ⟨⟨j, w, by simp, List.mem_cons_self _ _, by simp⟩,
            ⟨j, w, by simp, List.mem_cons_self _ _, by simp⟩⟩
        · rw [if_neg h3] at h ⊢
          obtain ⟨ha, hb, hc, hd⟩ :=
            scanAux_times_true rest
              (List.drop (normalize w.text).length buffer) w.start w.stop
              (wm + 1)
          refine ⟨⟨j, w, by simp, List.mem_cons_self _ _, by simpa using hb⟩,
            ?_⟩
          rcases hm : (scanAux rest (List.drop (normalize w.text).length
              buffer) w.start w.stop true (wm + 1)).matchedIdx with _ | ⟨a, m⟩
          · refine ⟨j, w, ?_, List.mem_cons_self _ _, ?_⟩
            · simp [hm]
            · simpa using hc hm
          · have h' : (j :: (scanAux rest (List.drop
                (normalize w.text).length buffer) w.start w.stop true
                (wm + 1)).matchedIdx).getLast? =
                (scanAux rest (List.drop (normalize w.text).length buffer)
                  w.start w.stop true (wm + 1)).matchedIdx.getLast? := by
              rw [hm]
              rw [List.getLast?_cons_cons]
            rcases hg : (scanAux rest (List.drop (normalize w.text).length
                buffer) w.start w.stop true (wm + 1)).matchedIdx.getLast?
              with _ | jl
            · rw [hm] at hg
              simp at hg
            · obtain ⟨wl, hwl, hel⟩ := hd jl hg
              refine ⟨jl, wl, ?_, List.mem_cons_of_mem _ hwl,
                by simpa using hel⟩
              show (j :: a :: m).getLast? = some jl
              rw [List.getLast?_cons_cons, ← hm]
              exact hg
      · rw [if_neg h2] at h ⊢
        simp only [Bool.false_eq_true, if_false] at h ⊢
        obtain ⟨⟨jf, wf, hf1, hf2, hf3⟩, ⟨jl, wl, hl1, hl2, hl3⟩⟩ :=
          ih buffer st et wm h
        exact ⟨⟨jf, wf, hf1, List.mem_cons_of_mem _ hf2, hf3⟩,
          ⟨jl, wl, hl1, List.mem_cons_of_mem _ hl2, hl3⟩⟩

/-- Membership in `List.enumFrom c l` gives the indexed element of `l`. -/
theorem mem_enumFrom_get :
    ∀ (l : List WordTimestamp) (c j : Nat) (w : WordTimestamp),
      (j, w) ∈ List.enumFrom c l → c ≤ j ∧ l.get? (j - c) = some w := by
  intro l
  induction l with
  | nil => intro c j w h; simp [List.enumFrom] at h
  | cons x rest ih =>
    intro c j w h
    simp only [List.enumFrom, List.mem_cons] at h
    rcases h with h | h
    · obtain ⟨h1, h2⟩ := Prod.mk.injEq .. ▸ h
      subst h1
      simp [Prod.ext_iff] at h
      simp [h]
    · obtain ⟨hc, hg⟩ := ih (c + 1) j w h
      refine ⟨Nat.le_of_succ_le hc, ?_⟩
      have : j - c = (j - (c + 1)) + 1 := by omega
      rw [this]
      simpa using hg

/-- From a matched index of a scene scan to the timestamp list entry. -/
theorem mem_enumFrom_drop_get (ts : List WordTimestamp) (c j : Nat)
    (w : WordTimestamp)
    (h : (j, w) ∈ List.enumFrom c (ts.drop c)) : ts.get? j = some w := by
  obtain ⟨hc, hg⟩ := mem_enumFrom_get (ts.drop c) c j w h
  rw [List.get?_drop] at hg
  rwa [Nat.add_sub_cancel' hc] at hg

/-- A scan whose narration buffer is already empty matches nothing and
never breaks: a non-empty word is never a prefix of the empty buffer. -/
theorem scanAux_nil_buffer (items : List (Nat × WordTimestamp))
    (st et : Int) (wm : Nat) :
    scanAux items [] st et false wm = ⟨[], st, et, false, wm, none, []⟩ := by
  refine scanAux_no_match items [] st et wm fun p _ hne hpre => hne ?_
  rw [List.isPrefixOf_iff_prefix] at hpre
  exact List.prefix_nil.mp hpre

/-! ### Lemmas about one iteration of the scene loop -/

/-- Lines 55–58 of `main.py`: a scene whose narration normalizes to nothing
gets the fixed 2-second fallback, consumes no timestamp and leaves the
cursor untouched. -/
theorem processScene_empty (ts : List WordTimestamp) (c i : Nat) (s : Scene)
    (h : normalize (pyStrip (s.narration.getD "")) = []) :
    processScene ts c i s =
      ⟨{ s with duration := some 2 }, c, [], [LogEntry.noNarration i]⟩ := by
  simp only [processScene]
  rw [if_pos h]

/-- The cursor never decreases across one scene. -/
theorem processScene_cursor_ge (ts : List WordTimestamp) (c i : Nat)
    (s : Scene) : c ≤ (processScene ts c i s).cursor := by
  simp only [processScene]
  by_cases hb : normalize (pyStrip (s.narration.getD "")) = []
  · rw [if_pos hb]
  · rw [if_neg hb]
    rcases hu : (scanScene ts c s).cursorUpdate with _ | u
    · by_cases hs : (scanScene ts c s).startFound = true
      · rw [if_pos hs]
        simp [hu]
      · rw [if_neg hs]
        simp [hu]
    · have hcu : c ≤ u := by
        rw [scanScene] at hu
        exact scanAux_cursorUpdate_ge (ts.drop c) c _ _ _ _ _ u hu
      by_cases hs : (scanScene ts c s).startFound = true
      · rw [if_pos hs]
        simpa [hu] using hcu
      · rw [if_neg hs]
        simpa [hu] using hcu

/-- Every timestamp index a scene matches lies at or after the cursor the
scene started from. -/
theorem processScene_matched_ge (ts : List WordTimestamp) (c i : Nat)
    (s : Scene) : ∀ j ∈ (processScene ts c i s).matched, c ≤ j := by
  intro j hj
  simp only [processScene] at hj
  by_cases hb : normalize (pyStrip (s.narration.getD "")) = []
  · rw [if_pos hb] at hj
    simp at hj
  · rw [if_neg hb] at hj
    by_cases hs : (scanScene ts c s).startFound = true
    · rw [if_pos hs] at hj
      exact scanAux_matched_ge (ts.drop c) c _ _ _ _ _ j hj
    · rw [if_neg hs] at hj
      exact scanAux_matched_ge (ts.drop c) c _ _ _ _ _ j hj

/-- If the scene's scan broke (full match or partial-match break, i.e. the
Python loop executed one of its two `break`s after assigning
`timestamp_cursor = u`), the step leaves the cursor at `u` and every index
this scene matched is `< u`. -/
theorem processScene_break (ts : List WordTimestamp) (c i : Nat) (s : Scene)
    (u : Nat) (h : (scanScene ts c s).cursorUpdate = some u) :
    (processScene ts c i s).cursor = u ∧
      ∀ j ∈ (processScene ts c i s).matched, j < u := by
  have hb : ¬normalize (pyStrip (s.narration.getD "")) = [] := by
    intro hb
    rw [scanScene, hb, scanAux_nil_buffer] at h
    simp at h
  simp only [processScene]
  rw [if_neg hb]
  constructor
  · by_cases hs : (scanScene ts c s).startFound = true
    · rw [if_pos hs]; simp [h]
    · rw [if_neg hs]; simp [h]
  · intro j hj
    by_cases hs : (scanScene ts c s).startFound = true
    · rw [if_pos hs] at hj
      exact scanAux_matched_lt (ts.drop c) c _ _ _ _ _ u j h hj
    · rw [if_neg hs] at hj
      exact scanAux_matched_lt (ts.drop c) c _ _ _ _ _ u j h hj

/-- If the scene's scan ran off the end of the timestamp list without
breaking, the step leaves the cursor exactly where it was. -/
theorem processScene_offEnd (ts : List WordTimestamp) (c i : Nat) (s : Scene)
    (h : (scanScene ts c s).cursorUpdate = none) :
    (processScene ts c i s).cursor = c := by
  simp only [processScene]
  by_cases hb : normalize (pyStrip (s.narration.getD "")) = []
  · rw [if_pos hb]
  · rw [if_neg hb]
    by_cases hs : (scanScene ts c s).startFound = true
    · rw [if_pos hs]; simp [h]
    · rw [if_neg hs]; simp [h]

/-- Each step only fills in the scene's `duration`, with one of the three
possible values: the 2-second empty-narration default, the 5-second
no-match fallback, or `(end - start)/1000 + 0.3`. -/
theorem processScene_shape (ts : List WordTimestamp) (c i : Nat)
    (s : Scene) :
    ∃ d : ℚ, (processScene ts c i s).scene = { s with duration := some d } ∧
      (d = 2 ∨ d = 5 ∨
        ∃ a b : Int, d = ((b - a : Int) : ℚ) / 1000 + 3 / 10) := by
  simp only [processScene]
  by_cases hb : normalize (pyStrip (s.narration.getD "")) = []
  · rw [if_pos hb]
    exact ⟨2, rfl, Or.inl rfl⟩
  · rw [if_neg hb]
    by_cases hs : (scanScene ts c s).startFound = true
    · rw [if_pos hs]
      exact ⟨_, rfl, Or.inr (Or.inr
        ⟨(scanScene ts c s).startTime, (scanScene ts c s).endTime, rfl⟩)⟩
    · rw [if_neg hs]
      exact ⟨5, rfl, Or.inr (Or.inl rfl)⟩

/-! ### Lemmas about the scene loop as a whole -/

/-- The cursor never decreases across the whole run. -/
theorem calcAux_cursor_ge (ts : List WordTimestamp) :
    ∀ (scenes : List Scene) (c i : Nat),
      c ≤ (calcAux ts scenes c i).cursor := by
  intro scenes
  induction scenes with
  | nil => intro c i; exact Nat.le_refl c
  | cons s rest ih =>
    intro c i
    exact Nat.le_trans (processScene_cursor_ge ts c i s)
      (ih (processScene ts c i s).cursor (i + 1))

/-- The fields of a scene other than `duration`. -/
def sceneCore (s : Scene) : Option String × String × String :=
  (s.narration, s.visual_prompt, s.extra)

/-- The run returns as many scenes as it was given, in the same positions,
with every field except `duration` untouched. -/
theorem calcAux_core (ts : List WordTimestamp) :
    ∀ (scenes : List Scene) (c i : Nat),
      (calcAux ts scenes c i).scenes.length = scenes.length ∧
      ∀ k, ((calcAux ts scenes c i).scenes.get? k).map sceneCore =
        (scenes.get? k).map sceneCore := by
  intro scenes
  induction scenes with
  | nil => intro c i; exact ⟨rfl, fun k => rfl⟩
  | cons s rest ih =>
    intro c i
    obtain ⟨ihl, ihk⟩ := ih (processScene ts c i s).cursor (i + 1)
    constructor
    · simpa [calcAux] using ihl
    · intro k
      match k with
      | 0 =>
        obtain ⟨d, hd, _⟩ := processScene_shape ts c i s
        simp [calcAux, hd, sceneCore]
      | k + 1 =>
        simpa [calcAux] using ihk k
/-- The ghost matched-index trace has one entry per scene. -/
theorem calcAux_matched_length (ts : List WordTimestamp) :
    ∀ (scenes : List Scene) (c i : Nat),
      (calcAux ts scenes c i).matched.length = scenes.length := by
  intro scenes
  induction scenes with
  | nil => intro c i; rfl
  | cons s rest ih =>
    intro c i
    simpa [calcAux] using ih (processScene ts c i s).cursor (i + 1)

/-- Every scene of the run's output carries a populated duration, equal to
2, 5, or `(end - start)/1000 + 0.3`. -/
theorem calcAux_durations (ts : List WordTimestamp) :
    ∀ (scenes : List Scene) (c i : Nat),
      ∀ s2 ∈ (calcAux ts scenes c i).scenes,
        ∃ d : ℚ, s2.duration = some d ∧
          (d = 2 ∨ d = 5 ∨
            ∃ a b : Int, d = ((b - a : Int) : ℚ) / 1000 + 3 / 10) := by
  intro scenes
  induction scenes with
  | nil => intro c i s2 h; simp [calcAux] at h
  | cons s rest ih =>
    intro c i s2 h
    simp only [calcAux, List.mem_cons] at h
    rcases h with h | h
    · obtain ⟨d, hd, hcases⟩ := processScene_shape ts c i s
      exact ⟨d, by rw [h, hd], hcases⟩
    · exact ih (processScene ts c i s).cursor (i + 1) s2 h

/-- Stage decomposition: the `k`-th matched-index list of a run is the one
`processScene` produces for the `k`-th scene at the cursor accumulated over
the first `k` scenes, and the next stage cursor is that step's cursor. -/
theorem calcAux_stage (ts : List WordTimestamp) :
    ∀ (k : Nat) (scenes : List Scene) (c i : Nat) (s : Scene),
      scenes.get? k = some s →
      (calcAux ts scenes c i).matched.get? k =
        some (processScene ts (cursorAt ts scenes c i k) (i + k) s).matched ∧
      cursorAt ts scenes c i (k + 1) =
        (processScene ts (cursorAt ts scenes c i k) (i + k) s).cursor := by
  intro k
  induction k with
  | zero =>
    intro scenes c i s hs
    match scenes, hs with
    | s2 :: rest, hs =>
      have hs2 : s2 = s := by simpa using hs
      subst hs2
      constructor
      · simp [calcAux, cursorAt]
      · simp [cursorAt, calcAux]
  | succ k ih =>
    intro scenes c i s hs
    match scenes with
    | s0 :: rest =>
      have hrest : rest.get? k = some s := by simpa using hs
      obtain ⟨ih1, ih2⟩ :=
        ih rest (processScene ts c i s0).cursor (i + 1) s hrest
      constructor
      · rw [show i + (k + 1) = (i + 1) + k by omega]
        rw [show cursorAt ts (s0 :: rest) c i (k + 1) =
            cursorAt ts rest (processScene ts c i s0).cursor (i + 1) k by
          simp [cursorAt, calcAux]]
        simpa [calcAux] using ih1
      · rw [show i + (k + 1) = (i + 1) + k by omega]
        rw [show cursorAt ts (s0 :: rest) c i (k + 1) =
            cursorAt ts rest (processScene ts c i s0).cursor (i + 1) k by
          simp [cursorAt, calcAux]]
        rw [show cursorAt ts (s0 :: rest) c i (k + 1 + 1) =
            cursorAt ts rest (processScene ts c i s0).cursor (i + 1)
              (k + 1) by
          simp [cursorAt, calcAux]]
        exact ih2

/-! ### Concrete fixtures from the spec's test scenarios -/

/-- The single scene of the partial-match scenario (§8 of the spec). -/
def sceneABCDE : Scene := ⟨some "ABCDE", "vp", "ex", none⟩

/-- Timestamps of the partial-match scenario. -/
def tsABCDE : List WordTimestamp :=
  [⟨"ABC", 0, 500⟩, ⟨"XYZ", 500, 700⟩, ⟨"DE", 700, 900⟩]

/-- The scene of the exact single-scene match scenario. -/
def sceneHello : Scene := ⟨some "你好世界", "vp", "ex", none⟩

/-- Timestamps of the exact single-scene match scenario. -/
def tsHello : List WordTimestamp :=
  [⟨"你好", 1000, 1400⟩, ⟨"世界", 1400, 2000⟩]

/-- A pure punctuation/whitespace narration. -/
def scenePunct : Scene := ⟨some "   ，、。", "vp", "ex", none⟩

/-- The no-match scenario scene. -/
def sceneUnrel : Scene := ⟨some "完全不相关的内容", "vp", "ex", none⟩

/-- Timestamps sharing no prefix with `sceneUnrel`. -/
def tsUnrel : List WordTimestamp :=
  [⟨"股市", 0, 500⟩, ⟨"上涨", 500, 900⟩]

/-- First scene of the re-consumption scenario: narration `"ABX"` matches
`"AB"` but then the timestamp list ends with `"X"` unmatched. -/
def sceneOverA : Scene := ⟨some "ABX", "vp", "ex", none⟩

/-- Second scene of the re-consumption scenario. -/
def sceneOverB : Scene := ⟨some "AB", "vp", "ex", none⟩

/-- The single shared timestamp of the re-consumption scenario. -/
def tsOver : List WordTimestamp := [⟨"AB", 0, 100⟩]

/-- First scene of the CJK re-consumption demo. -/
def sceneNiA : Scene := ⟨some "你好啊", "vp", "ex", none⟩

/-- Second scene of the CJK re-consumption demo. -/
def sceneNiB : Scene := ⟨some "你好", "vp", "ex", none⟩

/-- The single timestamp of the CJK re-consumption demo. -/
def tsNi : List WordTimestamp := [⟨"你好", 0, 1000⟩]

/-- Two scenes that split `tsHello` cleanly, for the break-disjointness
witness. -/
def sceneW1 : Scene := ⟨some "你好", "vp", "ex", none⟩

/-- Second scene of the clean split. -/
def sceneW2 : Scene := ⟨some "世界", "vp", "ex", none⟩

/-! ### Claim theorems -/

/-- C4: a scene whose narration normalizes to the empty character sequence
is assigned duration exactly 2.0, consumes no timestamps, and leaves the
cursor unchanged, regardless of the timestamp list. -/
theorem empty_narration_default (ts : List WordTimestamp) (c i : Nat)
    (s : Scene) (h : normalize (pyStrip (s.narration.getD "")) = []) :
    processScene ts c i s =
      ⟨{ s with duration := some 2 }, c, [], [LogEntry.noNarration i]⟩ :=
  processScene_empty ts c i s h

/-- Witness for C4 at the spec's `"   ，、。"` scenario. -/
theorem empty_narration_default_witness :
    processScene tsHello 0 0 scenePunct =
      ⟨{ scenePunct with duration := some 2 }, 0, [],
        [LogEntry.noNarration 0]⟩ :=
  empty_narration_default tsHello 0 0 scenePunct (by decide)

/-- C10: a scene with no narration field at all is treated like one with
empty narration: duration 2.0, cursor unchanged, no timestamp consumed. -/
theorem missing_narration_default (ts : List WordTimestamp) (c i : Nat)
    (s : Scene) (h : s.narration = none) :
    processScene ts c i s =
      ⟨{ s with duration := some 2 }, c, [], [LogEntry.noNarration i]⟩ := by
  apply processScene_empty
  rw [h]
  rfl

/-- Witness for C10: a narration-less scene against real timestamps. -/
theorem missing_narration_default_witness :
    processScene tsHello 0 0 ⟨none, "vp", "ex", none⟩ =
      ⟨⟨none, "vp", "ex", some 2⟩, 0, [], [LogEntry.noNarration 0]⟩ :=
  missing_narration_default tsHello 0 0 ⟨none, "vp", "ex", none⟩ rfl

/-- C7: the alignment cursor is monotonically nondecreasing: it never moves
backwards across one scene, nor over any whole run. -/
theorem cursor_nondecreasing (ts : List WordTimestamp) (scenes : List Scene)
    (c i : Nat) (s : Scene) :
    c ≤ (processScene ts c i s).cursor ∧
      c ≤ (calcAux ts scenes c i).cursor :=
  ⟨processScene_cursor_ge ts c i s, calcAux_cursor_ge ts scenes c i⟩

/-- C8: the output scene list has the same length and order as the input,
and every field other than `duration` is unchanged. -/
theorem order_and_fields_preserved (scenes : List Scene)
    (ts : List WordTimestamp) :
    (calculate_scene_durations scenes ts).length = scenes.length ∧
    ∀ k, ((calculate_scene_durations scenes ts).get? k).map sceneCore =
      (scenes.get? k).map sceneCore :=
  calcAux_core ts scenes 0 0

/-- C2: on narration `"ABCDE"` against `[("ABC",0,500), ("XYZ",500,700),
("DE",700,900)]` the match breaks at the second timestamp after `"ABC"`;
the duration is `(500-0)/1000 + 0.3 = 0.8`, the cursor advances to the
failing index 1, index 1 is not consumed (only index 0 is), and the
partial-match diagnostic names the unmatched remainder `"DE"`. -/
theorem partial_match_break_scenario :
    List.map Scene.duration (calcAux tsABCDE [sceneABCDE] 0 0).scenes =
      [some (4 / 5)] ∧
    (calcAux tsABCDE [sceneABCDE] 0 0).cursor = 1 ∧
    (calcAux tsABCDE [sceneABCDE] 0 0).matched = [[0]] ∧
    (calcAux tsABCDE [sceneABCDE] 0 0).logs.get? 0 =
      some (LogEntry.partMatch 0 ['D', 'E']) := by
  refine ⟨?_, by decide, by decide, by decide⟩
  have h : List.map Scene.duration (calcAux tsABCDE [sceneABCDE] 0 0).scenes
      = [some ((((500 : Int) - 0 : Int) : ℚ) / 1000 + 3 / 10)] := rfl
  rw [h]
  norm_num

/-- C9: when a scene's scan runs off the end of the timestamp list (no
break fired), the cursor is left exactly at its old value, and the
remaining-narration buffer is still non-empty; consequently the next scene
rescans from the old position and can re-consume an index this scene
matched, as the `["你好啊", "你好"]` vs `[("你好",0,1000)]` demo shows:
both scenes match index 0. -/
theorem off_end_cursor_unchanged (ts : List WordTimestamp) (c i : Nat)
    (s : Scene) (h : (scanScene ts c s).cursorUpdate = none) :
    (processScene ts c i s).cursor = c ∧
    (normalize (pyStrip (s.narration.getD "")) ≠ [] →
      (scanScene ts c s).buffer ≠ []) ∧
    (calcAux tsNi [sceneNiA, sceneNiB] 0 0).matched = [[0], [0]] := by
  refine ⟨processScene_offEnd ts c i s h, fun hb => ?_, by decide⟩
  rw [scanScene] at h ⊢
  exact scanAux_none_buffer _ _ _ _ _ _ hb h

/-- Witness for C9: the scan of `"你好啊"` against the single timestamp
`("你好",0,1000)` runs off the end; the cursor stays at 0. -/
theorem off_end_cursor_unchanged_witness :
    (processScene tsNi 0 0 sceneNiA).cursor = 0 :=
  (off_end_cursor_unchanged tsNi 0 0 sceneNiA (by decide)).1

/-- C1 is false as stated: with scenes `["ABX", "AB"]` and the single
timestamp `("AB",0,100)`, scene 0 matches index 0, its scan runs off the
end with `"X"` unmatched so the cursor is not advanced, and scene 1 then
matches index 0 again — the two matched-index sets are both `{0}`, neither
disjoint nor "entirely after". -/
theorem timestamp_reconsumption_cex :
    (calcAux tsOver [sceneOverA, sceneOverB] 0 0).matched.get? 0 =
      some [0] ∧
    (calcAux tsOver [sceneOverA, sceneOverB] 0 0).matched.get? 1 =
      some [0] ∧
    ¬ (∀ m0 m1, (calcAux tsOver [sceneOverA, sceneOverB] 0 0).matched =
        [m0, m1] → ∀ j ∈ m0, ∀ j2 ∈ m1, j < j2) := by
  refine ⟨by decide, by decide, fun hall => ?_⟩
  have := hall [0] [0] (by decide) 0 (by decide) 0 (by decide)
  omega

/-- C1 (amended): the matched-index sets of consecutive scenes are
disjoint and ordered — every index matched by scene `k+1` is strictly
greater than every index matched by scene `k` — provided scene `k`'s scan
terminated via a `break` (full match or partial-match break, i.e. it set
the cursor).  Only a scan that runs off the end of the timestamp list with
narration left over (cursor untouched) escapes this. -/
theorem consecutive_scenes_disjoint_after_break (ts : List WordTimestamp)
    (scenes : List Scene) (c i k : Nat) (s : Scene) (u : Nat)
    (m0 m1 : List Nat)
    (hs : scenes.get? k = some s)
    (hbreak : (scanScene ts (cursorAt ts scenes c i k) s).cursorUpdate =
      some u)
    (hm0 : (calcAux ts scenes c i).matched.get? k = some m0)
    (hm1 : (calcAux ts scenes c i).matched.get? (k + 1) = some m1) :
    ∀ j ∈ m0, ∀ j2 ∈ m1, j < j2 := by
  obtain ⟨hstage, hnext⟩ := calcAux_stage ts k scenes c i s hs
  rw [hstage] at hm0
  have hm0e : m0 =
      (processScene ts (cursorAt ts scenes c i k) (i + k) s).matched := by
    exact (Option.some.injEq _ _ ▸ hm0).symm
  obtain ⟨hcur, hlt⟩ :=
    processScene_break ts (cursorAt ts scenes c i k) (i + k) s u hbreak
  have hck1 : cursorAt ts scenes c i (k + 1) = u := by rw [hnext, hcur]
  have hlen : k + 1 < scenes.length := by
    have h1 : k + 1 < (calcAux ts scenes c i).matched.length := by
      rcases List.get?_eq_some.mp hm1 with ⟨h, _⟩
      exact h
    rwa [calcAux_matched_length ts scenes c i] at h1
  obtain ⟨s1, hs1⟩ : ∃ s1, scenes.get? (k + 1) = some s1 := by
    rcases hg : scenes.get? (k + 1) with _ | s1
    · rw [List.get?_eq_none] at hg
      omega
    · exact ⟨s1, rfl⟩
  obtain ⟨hstage1, _⟩ := calcAux_stage ts (k + 1) scenes c i s1 hs1
  rw [hstage1] at hm1
  have hm1e : m1 = (processScene ts (cursorAt ts scenes c i (k + 1))
      (i + (k + 1)) s1).matched := by
    exact (Option.some.injEq _ _ ▸ hm1).symm
  intro j hj j2 hj2
  have h1 : j < u := hlt j (hm0e ▸ hj)
  have h2 : u ≤ j2 := by
    have h3 := processScene_matched_ge ts (cursorAt ts scenes c i (k + 1))
      (i + (k + 1)) s1 j2 (hm1e ▸ hj2)
    rwa [hck1] at h3
  omega

/-- Witness for the amended C1: scenes `["你好", "世界"]` split the
`tsHello` stream cleanly; scene 0 fully matches index 0 (a break), scene 1
matches index 1, and indeed `0 < 1`. -/
theorem consecutive_scenes_disjoint_after_break_witness : (0 : Nat) < 1 :=
  consecutive_scenes_disjoint_after_break tsHello [sceneW1, sceneW2] 0 0 0
    sceneW1 1 [0] [1] (by decide) (by decide) (by decide) (by decide)
    0 (by decide) 1 (by decide)

/-- C5: a scene with non-empty normalized narration that matches no
timestamp from the cursor onward gets the conspicuous 5-second fallback,
leaves the cursor unchanged, consumes nothing, and the error diagnostic
names the unmatched narration text. -/
theorem no_match_fallback (ts : List WordTimestamp) (c i : Nat) (s : Scene)
    (hb : normalize (pyStrip (s.narration.getD "")) ≠ [])
    (hno : ∀ w ∈ ts.drop c, normalize w.text ≠ [] →
      ¬((normalize w.text).isPrefixOf
        (normalize (pyStrip (s.narration.getD ""))) = true)) :
    processScene ts c i s =
      ⟨{ s with duration := some 5 }, c, [],
        [LogEntry.noMatch i (pyStrip (s.narration.getD ""))]⟩ := by
  have hscan : scanScene ts c s =
      ⟨normalize (pyStrip (s.narration.getD "")), -1, -1, false, 0, none,
        []⟩ := by
    rw [scanScene]
    refine scanAux_no_match _ _ _ _ _ fun p hp hne hpre => ?_
    rcases p with ⟨j, w⟩
    exact hno w (List.get?_mem (mem_enumFrom_get (ts.drop c) c j w hp).2)
      hne hpre
  simp only [processScene]
  rw [if_neg hb, hscan]
  simp

/-- Witness for C5 at the spec's `"完全不相关的内容"` scenario. -/
theorem no_match_fallback_witness :
    processScene tsUnrel 0 0 sceneUnrel =
      ⟨{ sceneUnrel with duration := some 5 }, 0, [],
        [LogEntry.noMatch 0 "完全不相关的内容"]⟩ :=
  no_match_fallback tsUnrel 0 0 sceneUnrel (by decide) (by decide)

/-- C3: whenever at least one timestamp matched (`start_found`), the
assigned duration is `(scene_end - scene_start)/1000 + 0.3`, where
`scene_start` is the `start` of the first matched timestamp and
`scene_end` the `end` of the last matched one; on the spec's `"你好世界"`
scenario the duration is exactly 1.3. -/
theorem matched_duration_formula (ts : List WordTimestamp) (c i : Nat)
    (s : Scene) (hs : (scanScene ts c s).startFound = true) :
    (processScene ts c i s).scene.duration =
      some ((((scanScene ts c s).endTime -
        (scanScene ts c s).startTime : Int) : ℚ) / 1000 + 3 / 10) ∧
    (∃ jf wf, (scanScene ts c s).matchedIdx.head? = some jf ∧
      ts.get? jf = some wf ∧ (scanScene ts c s).startTime = wf.start) ∧
    (∃ jl wl, (scanScene ts c s).matchedIdx.getLast? = some jl ∧
      ts.get? jl = some wl ∧ (scanScene ts c s).endTime = wl.stop) ∧
    List.map Scene.duration (calcAux tsHello [sceneHello] 0 0).scenes =
      [some (13 / 10)] := by
  have hb : ¬normalize (pyStrip (s.narration.getD "")) = [] := by
    intro h0
    rw [scanScene, h0, scanAux_nil_buffer] at hs
    simp at hs
  have hs2 : (scanAux (List.enumFrom c (ts.drop c))
      (normalize (pyStrip (s.narration.getD ""))) (-1) (-1) false
      0).startFound = true := by
    rw [scanScene] at hs
    exact hs
  obtain ⟨⟨jf, wf, hf1, hf2, hf3⟩, ⟨jl, wl, hl1, hl2, hl3⟩⟩ :=
    scanAux_times_false (List.enumFrom c (ts.drop c))
      (normalize (pyStrip (s.narration.getD ""))) (-1) (-1) 0 hs2
  refine ⟨?_, ?_, ?_, ?_⟩
  · simp only [processScene]
    rw [if_neg hb, if_pos hs]
  · exact ⟨jf, wf, by rw [scanScene]; exact hf1,
      mem_enumFrom_drop_get ts c jf wf hf2, by rw [scanScene]; exact hf3⟩
  · exact ⟨jl, wl, by rw [scanScene]; exact hl1,
      mem_enumFrom_drop_get ts c jl wl hl2, by rw [scanScene]; exact hl3⟩
  · have h : List.map Scene.duration (calcAux tsHello [sceneHello] 0
        0).scenes = [some ((((2000 : Int) - 1000 : Int) : ℚ) / 1000 +
        3 / 10)] := rfl
    rw [h]
    norm_num

/-- Witness for C3 on the `"你好世界"` scenario. -/
theorem matched_duration_formula_witness :
    (processScene tsHello 0 0 sceneHello).scene.duration =
      some ((((scanScene tsHello 0 sceneHello).endTime -
        (scanScene tsHello 0 sceneHello).startTime : Int) : ℚ) / 1000 +
        3 / 10) :=
  (matched_duration_formula tsHello 0 0 sceneHello (by decide)).1

/-- C6: the aligner is a total function — it throws nothing and returns a
list in which every scene's duration is populated, with one of the three
values: the match formula, the 2.0 empty-narration default, or the 5.0
no-match fallback. -/
theorem aligner_total_assigns_duration (scenes : List Scene)
    (ts : List WordTimestamp) (s2 : Scene)
    (h : s2 ∈ calculate_scene_durations scenes ts) :
    ∃ d : ℚ, s2.duration = some d ∧
      (d = 2 ∨ d = 5 ∨
        ∃ a b : Int, d = ((b - a : Int) : ℚ) / 1000 + 3 / 10) :=
  calcAux_durations ts scenes 0 0 s2 h

/-- Witness for C6: the annotated punctuation-only scene is in the output
of its run and indeed carries a populated duration. -/
theorem aligner_total_assigns_duration_witness :
    ∃ d : ℚ, ({ scenePunct with duration := some 2 } : Scene).duration =
      some d ∧ (d = 2 ∨ d = 5 ∨
        ∃ a b : Int, d = ((b - a : Int) : ℚ) / 1000 + 3 / 10) :=
  aligner_total_assigns_duration [scenePunct] tsHello
    { scenePunct with duration := some 2 } (by decide)

end FV
